import Mathlib

/-!
Verification development for the Lambda debug stub relay
(`packages/resources/lambda/stub/index.js`).

The stub delegates an invocation over a persistent WebSocket to a remote
debug client.  We shallowly embed:

* the error codec (`destroyCircular`, `deserializeError`) over an explicit
  heap of JavaScript objects, so that cyclic object graphs are expressible;
* the relay state machine (`main`, `connectAndSendMessage`, `disconnect`,
  `sendMessage`, `receiveMessage`, the `onclose` handler) as pure state
  transformers emitting lists of observable actions (connects, closes,
  frame sends, timer operations, callback invocations, thrown errors).

Time (`Date.now()`) and `context.getRemainingTimeInMillis()` are passed in
as explicit parameters at the points where the source reads them.
-/

namespace Stub

/-- JavaScript primitive values (the non-object, non-function values the
codec can encounter).  `null` also covers `undefined` for our purposes:
both are falsy non-objects and are copied verbatim by the codec. -/
inductive Prim where
  | str (s : String)
  | num (n : Int)
  | boolean (b : Bool)
  | null
  deriving DecidableEq

/-- A JavaScript value as stored in an object property: a primitive, a
function, or a reference to a heap object (object identity = heap address). -/
inductive JVal where
  | prim (p : Prim)
  | fn
  | ref (a : Nat)
  deriving DecidableEq

/-- A JavaScript object: its `Array.isArray` status and its own properties
in insertion order, each with an enumerability flag (`Object.entries` lists
only enumerable own properties, while `from[key]` reads any own property). -/
structure JObj where
  isArray : Bool
  fields : List (String × JVal × Bool)
  deriving DecidableEq

/-- A heap of JavaScript objects; addresses are list indices.  Cyclic object
graphs are heaps whose objects hold `JVal.ref` back-references. -/
abbrev Heap := List JObj

/-- The cycle-free serialized value produced by `destroyCircular`: a tree of
plain objects.  Field triples carry the enumerability flag that
`Object.defineProperty` sets for the four identifying error fields. -/
inductive SVal where
  | prim (p : Prim)
  | obj (isArray : Bool) (fields : List (String × SVal × Bool))

/-- First own property with the given key, returning value and
enumerability (models a JavaScript own-property read plus its descriptor). -/
def getPropE (fs : List (String × α × Bool)) (k : String) : Option (α × Bool) :=
  match fs with
  | [] => none
  | (k', v, e) :: rest => if k' = k then some (v, e) else getPropE rest k

/-- Own-property read `from[k]` (descriptor dropped). -/
def getProp (fs : List (String × α × Bool)) (k : String) : Option α :=
  (getPropE fs k).map Prod.fst

/-- `Object.defineProperty(to, k, {value, enumerable, configurable, writable})`:
replace an existing own property in place, or append a new one. -/
def setField (fs : List (String × SVal × Bool)) (k : String) (v : SVal) (e : Bool) :
    List (String × SVal × Bool) :=
  if fs.any (fun f => f.1 = k) then
    fs.map (fun f => if f.1 = k then (k, v, e) else f)
  else fs ++ [(k, v, e)]

/-- The four identifying error fields reattached after the recursive walk,
with the enumerability each is defined with (source `commonProperties`). -/
def commonProperties : List (String × Bool) :=
  [("name", false), ("message", false), ("stack", false), ("code", true)]

/-- `typeof v === "string"` extractor for heap values. -/
def jStrOf : JVal → Option String
  | JVal.prim (Prim.str s) => some s
  | _ => none

/-- `typeof v === "string"` extractor for serialized tree values. -/
def sStrOf : SVal → Option String
  | SVal.prim (Prim.str s) => some s
  | _ => none

/-- One iteration of the trailing loop of `destroyCircular`: if
`from[property]` is string-valued, define it on `to` with the listed
enumerability (or enumerable when `forceEnumerable`); otherwise leave `to`
alone. -/
def overlayStep (strOf : α → Option String) (fromF : List (String × α × Bool))
    (forceEnumerable : Bool) (acc : List (String × SVal × Bool)) (pe : String × Bool) :
    List (String × SVal × Bool) :=
  match (getProp fromF pe.1).bind strOf with
  | some s => setField acc pe.1 (SVal.prim (Prim.str s))
      (if forceEnumerable then true else pe.2)
  | none => acc

/-- The trailing loop of `destroyCircular`, iterating `overlayStep` over the
four `commonProperties`. -/
def overlayCommon (strOf : α → Option String) (fromF : List (String × α × Bool))
    (forceEnumerable : Bool) (toF : List (String × SVal × Bool)) :
    List (String × SVal × Bool) :=
  commonProperties.foldl (overlayStep strOf fromF forceEnumerable) toF

/-- `Object.entries(from)`: the enumerable own properties, in order.
(JavaScript object keys are distinct, so first-match reads agree with the
entry list.) -/
def entriesOf (o : JObj) : List (String × JVal) :=
  (o.fields.filter fun f => f.2.2).map fun f => (f.1, f.2.1)

/-- Ranked count of heap addresses not yet on the visited path: the
termination measure of the recursive error walk (the walk pushes a fresh
heap address onto `seen` before each descent). -/
def notSeenCount (hlen : Nat) (seen : List Nat) : Nat :=
  ((Finset.range hlen).filter (fun b => b ∉ seen)).card

/-- The `Object.entries` loop of `destroyCircular`, walking the heap.  The
`seen` argument is the path of already-visited object identities *including*
the object whose entries these are (the source pushes `from` onto `seen`
before the loop).  Function values are skipped; primitives are copied;
references already on the path become the literal `"[Circular]"`; other
references are recursed into with the reference pushed onto a copy of the
path.  `forceEnumerable` is `undefined` at both source call sites and at
every recursive level, so the recursion passes `false`.  A dangling address
cannot occur in JavaScript (every object lives in the heap); it maps to
`null`. -/
def destroyCircularEntries (h : Heap) :
    List (String × JVal) → List Nat → List (String × SVal × Bool)
  | [], _ => []
  | (_, JVal.fn) :: rest, seen => destroyCircularEntries h rest seen
  | (k, JVal.prim p) :: rest, seen =>
      (k, SVal.prim p, true) :: destroyCircularEntries h rest seen
  | (k, JVal.ref b) :: rest, seen =>
      if hb : b ∈ seen then
        (k, SVal.prim (Prim.str "[Circular]"), true) :: destroyCircularEntries h rest seen
      else
        match hob : h[b]? with
        | some ob =>
            (k, SVal.obj ob.isArray
              (overlayCommon jStrOf ob.fields false
                (destroyCircularEntries h (entriesOf ob) (seen ++ [b]))), true)
              :: destroyCircularEntries h rest seen
        | none => (k, SVal.prim Prim.null, true) :: destroyCircularEntries h rest seen
termination_by fields seen => (notSeenCount h.length seen, fields.length)
decreasing_by
all_goals simp_wf
· exact Prod.Lex.right _ (by omega)
· exact Prod.Lex.right _ (by omega)
· exact Prod.Lex.right _ (by omega)
· apply Prod.Lex.left
  have hblt : b < h.length := by
    rcases Nat.lt_or_ge b h.length with hlt | hge
    · exact hlt
    · rw [List.getElem?_eq_none hge] at hob; cases hob
  apply Finset.card_lt_card
  rw [Finset.ssubset_def]
  refine ⟨fun x hx => ?_, fun hsub => ?_⟩
  · simp only [Finset.mem_filter, Finset.mem_range, List.mem_append,
      List.mem_singleton] at hx ⊢
    tauto
  · have hbmem : b ∈ (Finset.range h.length).filter (fun x => ¬x ∈ seen) := by
      simp [Finset.mem_filter, Finset.mem_range, hblt, hb]
    have hcontra := hsub hbmem
    simp [Finset.mem_filter, List.mem_append] at hcontra
· exact Prod.Lex.right _ (by omega)
· exact Prod.Lex.right _ (by omega)

/-- `destroyCircular({from, seen, forceEnumerable})` rooted at heap address
`a` with visited path `seen`: push `a`, build `to` (`[]` for arrays, `{}`
otherwise — recorded in the `isArray` flag), copy the entries, then reattach
the four identifying fields from the original object when string-valued. -/
def destroyCircular (h : Heap) (a : Nat) (seen : List Nat) : SVal :=
  match h[a]? with
  | some ob => SVal.obj ob.isArray
      (overlayCommon jStrOf ob.fields false
        (destroyCircularEntries h (entriesOf ob) (seen ++ [a])))
  | none => SVal.prim Prim.null

/-- The decode-side `destroyCircular` walk, as invoked by `deserializeError`
on the freshly parsed wire value.  The wire value is an acyclic tree of
fresh object identities, so the identity-based `seen.includes` test can
never fire and the `seen` argument is elided; `JSON.parse` output contains
no function-valued properties.  `Object.entries` lists only enumerable own
properties, hence the flag test; copied properties are plain assignments
(enumerable), and each recursed object gets the identifying-field overlay,
exactly as on the encode side. -/
def destroyCircularTreeEntries :
    List (String × SVal × Bool) → List (String × SVal × Bool)
  | [] => []
  | (k, SVal.prim p, true) :: rest =>
      (k, SVal.prim p, true) :: destroyCircularTreeEntries rest
  | (k, SVal.obj ia fs, true) :: rest =>
      (k, SVal.obj ia (overlayCommon sStrOf fs false (destroyCircularTreeEntries fs)), true)
        :: destroyCircularTreeEntries rest
  | (_, _, false) :: rest => destroyCircularTreeEntries rest

/-- Result of `deserializeError`: either the input returned unchanged (an
`Error` instance — impossible for a `JSON.parse`d wire value, hence not
separately modelled —, an array, or a non-object), or a fresh `Error`
carrying the own properties written onto it. -/
inductive DVal where
  | raw (v : SVal)
  | errObj (fields : List (String × SVal × Bool))

/-- `deserializeError(value)`: a plain non-null non-array object is decoded
by running `destroyCircular({from: value, seen: [], to_: new Error()})`;
anything else is returned unchanged.  A freshly constructed `new Error()`
contributes no modelled own fields: its only own property is its `stack`
trace, which no theorem below inspects and which the overlay replaces
whenever the wire object carries a string `stack`. -/
def deserializeError (v : SVal) : DVal :=
  match v with
  | SVal.obj false fs =>
      DVal.errObj (overlayCommon sStrOf fs false (destroyCircularTreeEntries fs))
  | v => DVal.raw v

/-- `e` object delivered to `ws.onerror`: the stored shape the close handler
later consults (`type` and `message` fields). -/
structure WsError where
  type : String
  message : String
  deriving DecidableEq

/-- Destructured fields of a parsed inbound frame
(`JSON.parse(data)` in `receiveMessage`); fields a frame does not carry are
`undefined`, modelled as `none`. -/
structure InFrame where
  action : String
  debugRequestId : Option String
  responseData : Option SVal
  responseError : Option SVal

/-- The outbound `stub.lambdaRequest` frame built by `sendMessage`. -/
structure OutFrame where
  action : String
  debugRequestId : String
  debugRequestTimeoutInMs : Nat
  debugSrcPath : Option String
  debugSrcHandler : Option String
  event : String
  functionName : String
  memoryLimitInMB : String
  awsRequestId : String
  env : List (String × String)

/-- Observable effects of the stub: transport operations, timer operations,
invocation completion, and thrown (uncaught) errors.  `crashNullRead` is the
`TypeError` raised by reading `.type` on a `null` `wsLastConnectError`. -/
inductive Action where
  | connect (connId : Nat)
  | closeConn (connId : Nat)
  | send (connId : Nat) (frame : OutFrame)
  | sendKeepAlive (connId : Nat)
  | armTimer (timerId : Nat) (ms : Nat)
  | clearTimer (timerId : Nat)
  | callbackOk (responseData : Option SVal)
  | throwErr (msg : String)
  | throwDeserialized (e : DVal)
  | crashNullRead

/-- The module-level `_ref` cell plus per-invocation fields `main` stores in
it, and two pieces of model bookkeeping: fresh-id counters for connections
and timers (`new WebSocket`/`setTimeout` allocations), and the list of
connections whose event handlers `disconnect` replaced with no-ops.
`ws = none` covers both initial `null` and post-ENOTFOUND `undefined`.
The process environment `penv` is fixed for the process lifetime. -/
structure RefState where
  ws : Option Nat
  wsConnectedAt : Nat
  wsLastConnectError : Option WsError
  keepAliveTimer : Option Nat
  debugRequestId : String
  event : String
  awsRequestId : String
  functionName : String
  memoryLimitInMB : String
  penv : List (String × String)
  nextConn : Nat
  nextTimer : Nat
  retired : List Nat

/-- Inputs of one Lambda invocation of `exports.main`: the `event`, the
`context` fields the stub reads, `Date.now()` at entry, and the
`context.getRemainingTimeInMillis()` reading taken when the request frame is
built. -/
structure Invocation where
  event : String
  awsRequestId : String
  functionName : String
  memoryLimitInMB : String
  now : Nat
  rem : Nat

/-- `CONNECTION_LIFESPAN`: a new connection replaces one established at
least this long ago (30 minutes). -/
def CONNECTION_LIFESPAN : Nat := 1800000

/-- The environment-variable names `constructEnvs` excludes. -/
def constructEnvsExcluded : List String :=
  ["SST_DEBUG_ENDPOINT", "SST_DEBUG_SRC_HANDLER", "SST_DEBUG_SRC_PATH",
   "AWS_LAMBDA_FUNCTION_MEMORY_SIZE", "AWS_LAMBDA_LOG_GROUP_NAME",
   "AWS_LAMBDA_LOG_STREAM_NAME", "LD_LIBRARY_PATH", "LAMBDA_TASK_ROOT",
   "AWS_LAMBDA_RUNTIME_API", "AWS_EXECUTION_ENV", "AWS_XRAY_DAEMON_ADDRESS",
   "AWS_LAMBDA_INITIALIZATION_TYPE", "PATH", "PWD", "LAMBDA_RUNTIME_DIR",
   "LANG", "NODE_PATH", "TZ", "SHLVL", "_AWS_XRAY_DAEMON_ADDRESS",
   "_AWS_XRAY_DAEMON_PORT", "AWS_XRAY_CONTEXT_MISSING", "_HANDLER",
   "_X_AMZN_TRACE_ID"]

/-- `constructEnvs()`: every process environment variable whose key is not
on the exclusion list, forwarded verbatim (keys of `process.env` are
distinct, so filtering the association list models the copied object). -/
def constructEnvs (penv : List (String × String)) : List (String × String) :=
  penv.filter fun kv => ¬constructEnvsExcluded.contains kv.1

/-- The request frame `sendMessage` serializes, with
`context.getRemainingTimeInMillis()` read at build time (`rem`). -/
def requestFrame (s : RefState) (rem : Nat) : OutFrame :=
  { action := "stub.lambdaRequest"
    debugRequestId := s.debugRequestId
    debugRequestTimeoutInMs := rem
    debugSrcPath := s.penv.lookup "SST_DEBUG_SRC_PATH"
    debugSrcHandler := s.penv.lookup "SST_DEBUG_SRC_HANDLER"
    event := s.event
    functionName := s.functionName
    memoryLimitInMB := s.memoryLimitInMB
    awsRequestId := s.awsRequestId
    env := constructEnvs s.penv }

/-- `sendMessage()`: serialize the request onto `_ref.ws`, then arm the
9-minute (540000 ms) keep-alive timer and store its handle.  `_ref.ws` is
non-null whenever the source reaches this function; a null `ws` would raise
a `TypeError` on `.send`. -/
def sendMessage (s : RefState) (rem : Nat) : RefState × List Action :=
  match s.ws with
  | none => (s, [Action.throwErr "TypeError: Cannot read properties of null"])
  | some cid =>
      ({ s with keepAliveTimer := some s.nextTimer, nextTimer := s.nextTimer + 1 },
       [Action.send cid (requestFrame s rem), Action.armTimer s.nextTimer 540000])

/-- `connectAndSendMessage()` minus its event-handler bodies: allocate a new
`WebSocket` (a fresh connection id with live handlers), record the
connection time, and reset the stored transport error.  The installed
handlers are the event cases of `step` below. -/
def connectAndSendMessage (s : RefState) (now : Nat) : RefState × List Action :=
  ({ s with ws := some s.nextConn, nextConn := s.nextConn + 1,
            wsConnectedAt := now, wsLastConnectError := none },
   [Action.connect s.nextConn])

/-- `disconnect()`: replace the current connection's four event handlers
(`onopen`, `onclose`, `onmessage`, `onerror`) with logging no-ops — recorded
by adding it to `retired` — and request its close.  The source only calls
this when a connection exists; on `null` it would raise a `TypeError`. -/
def disconnect (s : RefState) : RefState × List Action :=
  match s.ws with
  | none => (s, [Action.throwErr "TypeError: Cannot read properties of null"])
  | some cid => ({ s with retired := cid :: s.retired }, [Action.closeConn cid])

/-- `receiveMessage(data)`: failure signals from the server throw; a frame
whose action is not `client.lambdaResponse` or whose correlation id differs
from the pending one is discarded; a match stops the keep-alive timer (the
timer handle itself is not nulled) and either throws the deserialized
response error or completes the invocation with the response data.
`_ref.debugRequestId` is not cleared on completion. -/
def receiveMessage (s : RefState) (f : InFrame) : RefState × List Action :=
  if f.action = "server.failedToSendRequestDueToClientNotConnected" then
    (s, [Action.throwErr "Debug client not connected."])
  else if f.action = "server.failedToSendRequestDueToUnknown" then
    (s, [Action.throwErr "Failed to send request to debug client."])
  else if f.action ≠ "client.lambdaResponse" ∨ f.debugRequestId ≠ some s.debugRequestId then
    (s, [])
  else
    let stopTimer : List Action :=
      match s.keepAliveTimer with
      | some tid => [Action.clearTimer tid]
      | none => []
    match f.responseError with
    | some err => (s, stopTimer ++ [Action.throwDeserialized (deserializeError err)])
    | none => (s, stopTimer ++ [Action.callbackOk f.responseData])

/-- `String.prototype.startsWith`: the candidate prefix's characters are an
initial segment of the string's characters (evaluable test over the
character lists). -/
def jsStartsWith (s p : String) : Bool :=
  p.data.isPrefixOf s.data

/-- The `ws.onclose` handler body: stop the keep-alive timer if armed, then
classify `_ref.wsLastConnectError`.  When no error event preceded the close
the stored value is still `null` and reading `.type` raises a `TypeError`
(`crashNullRead`).  A `getaddrinfo ENOTFOUND` error is terminal: the handle
is dropped (`ws = undefined`) with no reconnect; any other stored error
triggers an immediate `connectAndSendMessage()`. -/
def oncloseBody (s : RefState) (now : Nat) : RefState × List Action :=
  let stopTimer : List Action :=
    match s.keepAliveTimer with
    | some tid => [Action.clearTimer tid]
    | none => []
  match s.wsLastConnectError with
  | none => (s, stopTimer ++ [Action.crashNullRead])
  | some e =>
      if e.type = "error" ∧ jsStartsWith e.message "getaddrinfo ENOTFOUND" then
        ({ s with ws := none }, stopTimer)
      else
        let (s', acts) := connectAndSendMessage s now
        (s', stopTimer ++ acts)

/-- `exports.main(event, context, callback)`: store the invocation data in
`_ref`, reset the keep-alive handle, generate the invocation's correlation
id from the request id and `Date.now()`, then connect, rotate-and-connect,
or send on the existing connection according to the lifespan test. -/
def main (s : RefState) (inv : Invocation) : RefState × List Action :=
  let s := { s with
    event := inv.event
    awsRequestId := inv.awsRequestId
    functionName := inv.functionName
    memoryLimitInMB := inv.memoryLimitInMB
    keepAliveTimer := none
    debugRequestId := inv.awsRequestId ++ "-" ++ toString inv.now }
  match s.ws with
  | none => connectAndSendMessage s inv.now
  | some _ =>
      if inv.now - s.wsConnectedAt ≥ CONNECTION_LIFESPAN then
        let (s1, a1) := disconnect s
        let (s2, a2) := connectAndSendMessage s1 inv.now
        (s2, a1 ++ a2)
      else
        sendMessage s inv.rem

/-- A transport or timer event delivered by the runtime.  Connection events
carry the connection they fired on. -/
inductive ConnEv where
  | opened
  | closed (code : Nat) (reason : String)
  | msg (f : InFrame)
  | errEv (e : WsError)

/-- An event: a connection event or a keep-alive timer firing. -/
inductive Event where
  | conn (c : Nat) (ev : ConnEv)
  | timerFire (tid : Nat)

/-- One event dispatch.  A connection in `retired` had its handlers replaced
by logging no-ops, so its events have no effect.  Handlers of live
connections act through `_ref` only (none reads its own connection), exactly
as the source closures do.  The keep-alive timer callback sends the
`stub.keepAlive` frame on the *current* `_ref.ws` and does not rearm. -/
def step (s : RefState) (now rem : Nat) : Event → RefState × List Action
  | Event.timerFire _ =>
      match s.ws with
      | some cid => (s, [Action.sendKeepAlive cid])
      | none => (s, [Action.throwErr "TypeError: Cannot read properties of undefined"])
  | Event.conn c ev =>
      if c ∈ s.retired then (s, [])
      else
        match ev with
        | ConnEv.opened => sendMessage s rem
        | ConnEv.closed _ _ => oncloseBody s now
        | ConnEv.msg f => receiveMessage s f
        | ConnEv.errEv e => ({ s with wsLastConnectError := some e }, [])

/-- Run a sequence of events, each with its own `Date.now()` and
remaining-time reading, accumulating the emitted actions. -/
def runSteps : RefState → List (Nat × Nat × Event) → RefState × List Action
  | s, [] => (s, [])
  | s, (now, rem, ev) :: rest =>
      let (s1, a1) := step s now rem ev
      let (s2, a2) := runSteps s1 rest
      (s2, a1 ++ a2)

/-- Run a sequence of invocations of `exports.main`, accumulating actions. -/
def runMains : RefState → List Invocation → RefState × List Action
  | s, [] => (s, [])
  | s, inv :: rest =>
      let (s1, a1) := main s inv
      let (s2, a2) := runMains s1 rest
      (s2, a1 ++ a2)

/-- Field read on the result of `deserializeError` when it produced an
`Error` object; `none` for inputs returned unchanged. -/
def errField : DVal → String → Option SVal
  | DVal.errObj fs, k => getProp fs k
  | DVal.raw _, _ => none

/-- Recognizers for counting observable actions. -/
def Action.isConnect : Action → Bool
  | Action.connect _ => true
  | _ => false

def Action.isCloseConn : Action → Bool
  | Action.closeConn _ => true
  | _ => false

def Action.isSendReq : Action → Bool
  | Action.send _ _ => true
  | _ => false

def Action.isArm : Action → Bool
  | Action.armTimer _ _ => true
  | _ => false

def Action.isKeepAliveSend : Action → Bool
  | Action.sendKeepAlive _ => true
  | _ => false

/-- A completion of the in-flight invocation: success (`callback(null, data)`)
or fatal failure with the reconstructed remote error. -/
def Action.isCompletionOrFailure : Action → Bool
  | Action.callbackOk _ => true
  | Action.throwDeserialized _ => true
  | _ => false

def Action.isCallback : Action → Bool
  | Action.callbackOk _ => true
  | _ => false

/-- The relay state at process start: `_ref` holds only `ws: null`,
`wsConnectedAt: 0`, `wsLastConnectError: null`. -/
def initialState (penv : List (String × String)) : RefState :=
  { ws := none, wsConnectedAt := 0, wsLastConnectError := none,
    keepAliveTimer := none, debugRequestId := "", event := "",
    awsRequestId := "", functionName := "", memoryLimitInMB := "",
    penv := penv, nextConn := 0, nextTimer := 0, retired := [] }

/-- Concrete first invocation used by the closed computations below. -/
def exInv : Invocation :=
  { event := "evt1", awsRequestId := "req1", functionName := "fn",
    memoryLimitInMB := "128", now := 1000, rem := 90000 }

/-- State after the first invocation on a fresh process: connection 0 was
allocated and is connecting. -/
def exConnected : RefState := (main (initialState []) exInv).1

/-- State after connection 0 opened and the request was sent: keep-alive
timer 0 armed, no transport error observed so far. -/
def exOpened : RefState := (step exConnected 1001 89000 (Event.conn 0 ConnEv.opened)).1

/-- A response frame matching `exOpened`'s pending correlation id. -/
def exMatchFrame : InFrame :=
  { action := "client.lambdaResponse", debugRequestId := some exOpened.debugRequestId,
    responseData := some (SVal.prim (Prim.str "ok")), responseError := none }

/-- The remote relay's "target not connected" failure signal. -/
def exNotConnectedFrame : InFrame :=
  { action := "server.failedToSendRequestDueToClientNotConnected",
    debugRequestId := none, responseData := none, responseError := none }

/-- The remote relay's "unknown send failure" signal. -/
def exUnknownFrame : InFrame :=
  { action := "server.failedToSendRequestDueToUnknown",
    debugRequestId := none, responseData := none, responseError := none }

/-- A response frame for a different correlation id. -/
def exStaleFrame : InFrame :=
  { action := "client.lambdaResponse", debugRequestId := some "someOtherId",
    responseData := some (SVal.prim (Prim.str "stale")), responseError := none }

/-- A concrete cyclic error object: string-valued `name`, `message`, `code`,
and a `self` property referencing the object itself. -/
def exErrObj : JObj :=
  { isArray := false,
    fields := [("name", JVal.prim (Prim.str "E"), false),
               ("message", JVal.prim (Prim.str "boom"), false),
               ("code", JVal.prim (Prim.str "EFOO"), true),
               ("self", JVal.ref 0, true)] }

/-- One-object heap holding the cyclic error object at address 0. -/
def exHeap : Heap := [exErrObj]

/-- A matching response frame carrying a remote execution error. -/
def exErrorFrame : InFrame :=
  { action := "client.lambdaResponse", debugRequestId := some exOpened.debugRequestId,
    responseData := none, responseError := some (SVal.prim (Prim.str "oops")) }

/-- `exOpened` after a transient transport error (`ECONNRESET`) was observed. -/
def exErrored : RefState :=
  (step exOpened 1002 0 (Event.conn 0 (ConnEv.errEv ⟨"error", "ECONNRESET"⟩))).1

/-- `exOpened` after a DNS-resolution failure against the endpoint. -/
def exUnresolvable : RefState :=
  (step exOpened 1002 0
    (Event.conn 0 (ConnEv.errEv ⟨"error", "getaddrinfo ENOTFOUND host"⟩))).1

/-- An invocation arriving after the connection lifespan elapsed. -/
def exRotInv : Invocation :=
  { event := "evt2", awsRequestId := "req2", functionName := "fn",
    memoryLimitInMB := "128", now := 2000000, rem := 80000 }

/-- Two further invocations well within the connection lifespan. -/
def exInv2 : Invocation :=
  { event := "evt3", awsRequestId := "req3", functionName := "fn",
    memoryLimitInMB := "128", now := 5000, rem := 90000 }

def exInv3 : Invocation :=
  { event := "evt4", awsRequestId := "req4", functionName := "fn",
    memoryLimitInMB := "128", now := 9000, rem := 90000 }

theorem getPropE_map_set (k : String) (v : SVal) (e : Bool) :
    ∀ (fs : List (String × SVal × Bool)),
      (fs.any fun f => decide (f.1 = k)) = true →
      getPropE (fs.map fun f => if f.1 = k then (k, v, e) else f) k = some (v, e)
  | [], hany => by simp at hany
  | (k1, v1, e1) :: rest, hany => by
      rw [List.any_cons, Bool.or_eq_true] at hany
      by_cases hf : k1 = k
      · simp only [List.map_cons]
        rw [if_pos hf]
        simp only [getPropE]
        simp
      · simp only [List.map_cons]
        rw [if_neg hf]
        simp only [getPropE]
        rw [if_neg hf]
        refine getPropE_map_set k v e rest ?_
        rcases hany with h1 | h2
        · exact absurd (of_decide_eq_true h1) hf
        · exact h2

theorem getPropE_append_set (k : String) (v : SVal) (e : Bool) :
    ∀ (fs : List (String × SVal × Bool)),
      (fs.any fun f => decide (f.1 = k)) = false →
      getPropE (fs ++ [(k, v, e)]) k = some (v, e)
  | [], _ => by
      simp only [List.nil_append, getPropE]
      simp
  | (k1, v1, e1) :: rest, hany => by
      rw [List.any_cons, Bool.or_eq_false_iff] at hany
      have hf : ¬k1 = k := of_decide_eq_false hany.1
      simp only [List.cons_append, getPropE]
      rw [if_neg hf]
      exact getPropE_append_set k v e rest hany.2

/-- Reading back a field just defined by `setField`. -/
theorem getPropE_setField_self (fs : List (String × SVal × Bool)) (k : String)
    (v : SVal) (e : Bool) : getPropE (setField fs k v e) k = some (v, e) := by
  unfold setField
  split
  · exact getPropE_map_set k v e fs (by assumption)
  · rename_i hany
    rw [Bool.not_eq_true] at hany
    exact getPropE_append_set k v e fs hany

theorem getPropE_map_set_ne (k k' : String) (v : SVal) (e : Bool) (hk : k' ≠ k) :
    ∀ (fs : List (String × SVal × Bool)),
      getPropE (fs.map fun f => if f.1 = k then (k, v, e) else f) k' = getPropE fs k'
  | [] => rfl
  | (k1, v1, e1) :: rest => by
      by_cases hf : k1 = k
      · simp only [List.map_cons]
        rw [if_pos hf]
        simp only [getPropE]
        rw [if_neg (fun h => hk h.symm), if_neg (fun h => hk (hf ▸ h).symm)]
        exact getPropE_map_set_ne k k' v e hk rest
      · simp only [List.map_cons]
        rw [if_neg hf]
        simp only [getPropE]
        by_cases hf' : k1 = k'
        · rw [if_pos hf', if_pos hf']
        · rw [if_neg hf', if_neg hf']
          exact getPropE_map_set_ne k k' v e hk rest

theorem getPropE_append_ne (k k' : String) (v : SVal) (e : Bool) (hk : k' ≠ k) :
    ∀ (fs : List (String × SVal × Bool)),
      getPropE (fs ++ [(k, v, e)]) k' = getPropE fs k'
  | [] => by
      simp only [List.nil_append, getPropE]
      rw [if_neg (fun h => hk h.symm)]
  | (k1, v1, e1) :: rest => by
      simp only [List.cons_append, getPropE]
      by_cases hf' : k1 = k'
      · rw [if_pos hf', if_pos hf']
      · rw [if_neg hf', if_neg hf']
        exact getPropE_append_ne k k' v e hk rest

/-- `setField` at one key does not change reads at a different key. -/
theorem getPropE_setField_ne (fs : List (String × SVal × Bool)) (k k' : String)
    (v : SVal) (e : Bool) (hk : k' ≠ k) :
    getPropE (setField fs k v e) k' = getPropE fs k' := by
  unfold setField
  split
  · exact getPropE_map_set_ne k k' v e hk fs
  · exact getPropE_append_ne k k' v e hk fs

theorem getPropE_overlayStep_ne (strOf : α → Option String)
    (fromF : List (String × α × Bool)) (fe : Bool)
    (acc : List (String × SVal × Bool)) (pe : String × Bool) (k' : String)
    (hk : k' ≠ pe.1) :
    getPropE (overlayStep strOf fromF fe acc pe) k' = getPropE acc k' := by
  unfold overlayStep
  split
  · exact getPropE_setField_ne acc pe.1 k' _ _ hk
  · rfl

theorem overlayStep_none (strOf : α → Option String)
    (fromF : List (String × α × Bool)) (fe : Bool)
    (acc : List (String × SVal × Bool)) (pe : String × Bool)
    (h : (getProp fromF pe.1).bind strOf = none) :
    overlayStep strOf fromF fe acc pe = acc := by
  unfold overlayStep
  rw [h]

theorem getPropE_overlayStep_self (strOf : α → Option String)
    (fromF : List (String × α × Bool)) (acc : List (String × SVal × Bool))
    (k : String) (en : Bool) (v : α) (s : String)
    (hv : getProp fromF k = some v) (hs : strOf v = some s) :
    getPropE (overlayStep strOf fromF false acc (k, en)) k
      = some (SVal.prim (Prim.str s), en) := by
  unfold overlayStep
  simp only [hv, Option.some_bind, hs]
  simpa using getPropE_setField_self acc k (SVal.prim (Prim.str s)) en

/-- Reading one of the four identifying fields after the overlay, when the
source object carries it string-valued: the overlay defines it with the
listed enumerability. -/
theorem getPropE_overlayCommon_common (strOf : α → Option String)
    (fromF : List (String × α × Bool)) (toF : List (String × SVal × Bool))
    (p : String) (en : Bool) (hp : (p, en) ∈ commonProperties)
    (v : α) (s : String) (hv : getProp fromF p = some v) (hs : strOf v = some s) :
    getPropE (overlayCommon strOf fromF false toF) p
      = some (SVal.prim (Prim.str s), en) := by
  simp only [commonProperties, List.mem_cons, List.not_mem_nil, or_false] at hp
  simp only [overlayCommon, commonProperties, List.foldl]
  rcases hp with h | h | h | h
  · injection h with h1 h2
    subst h1; subst h2
    rw [getPropE_overlayStep_ne _ _ _ _ _ _ (by decide),
        getPropE_overlayStep_ne _ _ _ _ _ _ (by decide),
        getPropE_overlayStep_ne _ _ _ _ _ _ (by decide)]
    exact getPropE_overlayStep_self strOf fromF _ _ _ v s hv hs
  · injection h with h1 h2
    subst h1; subst h2
    rw [getPropE_overlayStep_ne _ _ _ _ _ _ (by decide),
        getPropE_overlayStep_ne _ _ _ _ _ _ (by decide)]
    exact getPropE_overlayStep_self strOf fromF _ _ _ v s hv hs
  · injection h with h1 h2
    subst h1; subst h2
    rw [getPropE_overlayStep_ne _ _ _ _ _ _ (by decide)]
    exact getPropE_overlayStep_self strOf fromF _ _ _ v s hv hs
  · injection h with h1 h2
    subst h1; subst h2
    exact getPropE_overlayStep_self strOf fromF _ _ _ v s hv hs

/-- The overlay leaves a key alone when `from[key]` is not string-valued. -/
theorem getPropE_overlayCommon_none (strOf : α → Option String)
    (fromF : List (String × α × Bool)) (fe : Bool)
    (toF : List (String × SVal × Bool)) (k : String)
    (h : (getProp fromF k).bind strOf = none) :
    getPropE (overlayCommon strOf fromF fe toF) k = getPropE toF k := by
  have hstep : ∀ (acc : List (String × SVal × Bool)) (pe : String × Bool),
      getPropE (overlayStep strOf fromF fe acc pe) k = getPropE acc k := by
    intro acc pe
    by_cases hpe : k = pe.1
    · rw [overlayStep_none strOf fromF fe acc pe (hpe ▸ h)]
    · exact getPropE_overlayStep_ne strOf fromF fe acc pe k hpe
  simp only [overlayCommon, commonProperties, List.foldl]
  rw [hstep, hstep, hstep, hstep]

/-- The overlay touches only the four identifying keys. -/
theorem getPropE_overlayCommon_notin (strOf : α → Option String)
    (fromF : List (String × α × Bool)) (fe : Bool)
    (toF : List (String × SVal × Bool)) (k : String)
    (h1 : k ≠ "name") (h2 : k ≠ "message") (h3 : k ≠ "stack") (h4 : k ≠ "code") :
    getPropE (overlayCommon strOf fromF fe toF) k = getPropE toF k := by
  simp only [overlayCommon, commonProperties, List.foldl]
  rw [getPropE_overlayStep_ne _ _ _ _ _ _ h4, getPropE_overlayStep_ne _ _ _ _ _ _ h3,
      getPropE_overlayStep_ne _ _ _ _ _ _ h2, getPropE_overlayStep_ne _ _ _ _ _ _ h1]

/-- During the entry walk, an entry whose value references an object already
on the visited path comes out as the literal `"[Circular]"` (first-match
read, assuming the entry is the first with its key). -/
theorem getPropE_destroyCircularEntries_circular (h : Heap) (k : String) (b : Nat) :
    ∀ (l : List (String × JVal)) (seen : List Nat),
      l.lookup k = some (JVal.ref b) → b ∈ seen →
      getPropE (destroyCircularEntries h l seen) k
        = some (SVal.prim (Prim.str "[Circular]"), true)
  | [], seen, hlk, _ => by simp [List.lookup] at hlk
  | (k1, v1) :: rest, seen, hlk, hbseen => by
      by_cases hk1 : k = k1
      · subst hk1
        rw [List.lookup] at hlk
        simp only [beq_self_eq_true] at hlk
        injection hlk with hv
        subst hv
        simp only [destroyCircularEntries, dif_pos hbseen, getPropE]
        simp
      · rw [List.lookup] at hlk
        rw [show (k == k1) = false from beq_eq_false_iff_ne.mpr hk1] at hlk
        have hne : ¬k1 = k := fun hh => hk1 hh.symm
        have ih := getPropE_destroyCircularEntries_circular h k b rest seen hlk hbseen
        cases v1 with
        | fn => simpa [destroyCircularEntries] using ih
        | prim p =>
            simp only [destroyCircularEntries, getPropE]
            rw [if_neg hne]
            exact ih
        | ref b' =>
            by_cases hb' : b' ∈ seen
            · simp only [destroyCircularEntries, dif_pos hb', getPropE]
              rw [if_neg hne]
              exact ih
            · simp only [destroyCircularEntries, dif_neg hb']
              split
              · simp only [getPropE]
                rw [if_neg hne]
                exact ih
              · simp only [getPropE]
                rw [if_neg hne]
                exact ih

/-- The decode-side walk copies an enumerable primitive-valued field
verbatim (first-match read). -/
theorem getPropE_destroyCircularTreeEntries_prim (k : String) (p : Prim) :
    ∀ (l : List (String × SVal × Bool)),
      getPropE l k = some (SVal.prim p, true) →
      getPropE (destroyCircularTreeEntries l) k = some (SVal.prim p, true)
  | [], hl => by simp [getPropE] at hl
  | (k1, v1, e1) :: rest, hl => by
      simp only [getPropE] at hl
      by_cases hk1 : k1 = k
      · rw [if_pos hk1] at hl
        injection hl with hl'
        have hv : v1 = SVal.prim p := congrArg Prod.fst hl'
        have he : e1 = true := congrArg Prod.snd hl'
        subst hk1; subst hv; subst he
        simp only [destroyCircularTreeEntries, getPropE]
        simp
      · rw [if_neg hk1] at hl
        have ih := getPropE_destroyCircularTreeEntries_prim k p rest hl
        cases e1 with
        | false => simpa [destroyCircularTreeEntries] using ih
        | true =>
            cases v1 with
            | prim q =>
                simp only [destroyCircularTreeEntries, getPropE]
                rw [if_neg hk1]
                exact ih
            | obj ia fs =>
                simp only [destroyCircularTreeEntries, getPropE]
                rw [if_neg hk1]
                exact ih

/-- C9: for every error object `e` — including one whose property graph
references an ancestor on its own chain — `decode(encode(e))` is total
(`destroyCircular` and `deserializeError` are total Lean functions, so no
unbounded recursion is possible) and yields an error whose `name`,
`message`, and `code` equal `e`'s whenever those fields are string-valued
on `e`; an enumerable property referencing the object itself (an ancestor
on the current path) comes back as the literal string `"[Circular]"`. -/
theorem c9_decode_encode_roundtrip (h : Heap) (a : Nat) (ob : JObj)
    (ha : h[a]? = some ob) (hna : ob.isArray = false) :
    (∀ s, getProp ob.fields "name" = some (JVal.prim (Prim.str s)) →
        errField (deserializeError (destroyCircular h a [])) "name"
          = some (SVal.prim (Prim.str s)))
  ∧ (∀ s, getProp ob.fields "message" = some (JVal.prim (Prim.str s)) →
        errField (deserializeError (destroyCircular h a [])) "message"
          = some (SVal.prim (Prim.str s)))
  ∧ (∀ s, getProp ob.fields "code" = some (JVal.prim (Prim.str s)) →
        errField (deserializeError (destroyCircular h a [])) "code"
          = some (SVal.prim (Prim.str s)))
  ∧ (∀ k, (entriesOf ob).lookup k = some (JVal.ref a) →
        getProp ob.fields k = some (JVal.ref a) →
        errField (deserializeError (destroyCircular h a [])) k
          = some (SVal.prim (Prim.str "[Circular]"))) := by
  have henc : destroyCircular h a []
      = SVal.obj false (overlayCommon jStrOf ob.fields false
          (destroyCircularEntries h (entriesOf ob) ([] ++ [a]))) := by
    simp only [destroyCircular, ha, hna]
  refine ⟨fun s hs => ?_, fun s hs => ?_, fun s hs => ?_, fun k hlk hok => ?_⟩
  · have h1 := getPropE_overlayCommon_common jStrOf ob.fields
      (destroyCircularEntries h (entriesOf ob) ([] ++ [a])) "name" false
      (by decide) (JVal.prim (Prim.str s)) s hs rfl
    have h2 : getProp (overlayCommon jStrOf ob.fields false
        (destroyCircularEntries h (entriesOf ob) ([] ++ [a]))) "name"
        = some (SVal.prim (Prim.str s)) := by
      rw [getProp, h1]; rfl
    have h3 := getPropE_overlayCommon_common sStrOf _
      (destroyCircularTreeEntries (overlayCommon jStrOf ob.fields false
        (destroyCircularEntries h (entriesOf ob) ([] ++ [a])))) "name" false
      (by decide) (SVal.prim (Prim.str s)) s h2 rfl
    rw [henc]
    simp only [deserializeError, errField, getProp, h3]
    rfl
  · have h1 := getPropE_overlayCommon_common jStrOf ob.fields
      (destroyCircularEntries h (entriesOf ob) ([] ++ [a])) "message" false
      (by decide) (JVal.prim (Prim.str s)) s hs rfl
    have h2 : getProp (overlayCommon jStrOf ob.fields false
        (destroyCircularEntries h (entriesOf ob) ([] ++ [a]))) "message"
        = some (SVal.prim (Prim.str s)) := by
      rw [getProp, h1]; rfl
    have h3 := getPropE_overlayCommon_common sStrOf _
      (destroyCircularTreeEntries (overlayCommon jStrOf ob.fields false
        (destroyCircularEntries h (entriesOf ob) ([] ++ [a])))) "message" false
      (by decide) (SVal.prim (Prim.str s)) s h2 rfl
    rw [henc]
    simp only [deserializeError, errField, getProp, h3]
    rfl
  · have h1 := getPropE_overlayCommon_common jStrOf ob.fields
      (destroyCircularEntries h (entriesOf ob) ([] ++ [a])) "code" true
      (by decide) (JVal.prim (Prim.str s)) s hs rfl
    have h2 : getProp (overlayCommon jStrOf ob.fields false
        (destroyCircularEntries h (entriesOf ob) ([] ++ [a]))) "code"
        = some (SVal.prim (Prim.str s)) := by
      rw [getProp, h1]; rfl
    have h3 := getPropE_overlayCommon_common sStrOf _
      (destroyCircularTreeEntries (overlayCommon jStrOf ob.fields false
        (destroyCircularEntries h (entriesOf ob) ([] ++ [a])))) "code" true
      (by decide) (SVal.prim (Prim.str s)) s h2 rfl
    rw [henc]
    simp only [deserializeError, errField, getProp, h3]
    rfl
  · have hE := getPropE_destroyCircularEntries_circular h k a (entriesOf ob)
      ([] ++ [a]) hlk (by simp)
    have hband : (getProp ob.fields k).bind jStrOf = none := by
      rw [hok]; rfl
    have hF : getPropE (overlayCommon jStrOf ob.fields false
        (destroyCircularEntries h (entriesOf ob) ([] ++ [a]))) k
        = some (SVal.prim (Prim.str "[Circular]"), true) := by
      rw [getPropE_overlayCommon_none jStrOf ob.fields false _ k hband]
      exact hE
    have hFg : getProp (overlayCommon jStrOf ob.fields false
        (destroyCircularEntries h (entriesOf ob) ([] ++ [a]))) k
        = some (SVal.prim (Prim.str "[Circular]")) := by
      rw [getProp, hF]; rfl
    rw [henc]
    simp only [deserializeError, errField]
    by_cases hk1 : k = "name"
    · subst hk1
      have h3 := getPropE_overlayCommon_common sStrOf _
        (destroyCircularTreeEntries (overlayCommon jStrOf ob.fields false
          (destroyCircularEntries h (entriesOf ob) ([] ++ [a])))) "name" false
        (by decide) (SVal.prim (Prim.str "[Circular]")) "[Circular]" hFg rfl
      simp only [getProp, h3]; rfl
    by_cases hk2 : k = "message"
    · subst hk2
      have h3 := getPropE_overlayCommon_common sStrOf _
        (destroyCircularTreeEntries (overlayCommon jStrOf ob.fields false
          (destroyCircularEntries h (entriesOf ob) ([] ++ [a])))) "message" false
        (by decide) (SVal.prim (Prim.str "[Circular]")) "[Circular]" hFg rfl
      simp only [getProp, h3]; rfl
    by_cases hk3 : k = "stack"
    · subst hk3
      have h3 := getPropE_overlayCommon_common sStrOf _
        (destroyCircularTreeEntries (overlayCommon jStrOf ob.fields false
          (destroyCircularEntries h (entriesOf ob) ([] ++ [a])))) "stack" false
        (by decide) (SVal.prim (Prim.str "[Circular]")) "[Circular]" hFg rfl
      simp only [getProp, h3]; rfl
    by_cases hk4 : k = "code"
    · subst hk4
      have h3 := getPropE_overlayCommon_common sStrOf _
        (destroyCircularTreeEntries (overlayCommon jStrOf ob.fields false
          (destroyCircularEntries h (entriesOf ob) ([] ++ [a])))) "code" true
        (by decide) (SVal.prim (Prim.str "[Circular]")) "[Circular]" hFg rfl
      simp only [getProp, h3]; rfl
    · have h4 := getPropE_overlayCommon_notin sStrOf
        (overlayCommon jStrOf ob.fields false
          (destroyCircularEntries h (entriesOf ob) ([] ++ [a]))) false
        (destroyCircularTreeEntries (overlayCommon jStrOf ob.fields false
          (destroyCircularEntries h (entriesOf ob) ([] ++ [a])))) k hk1 hk2 hk3 hk4
      have h5 := getPropE_destroyCircularTreeEntries_prim k (Prim.str "[Circular]")
        (overlayCommon jStrOf ob.fields false
          (destroyCircularEntries h (entriesOf ob) ([] ++ [a]))) hF
      simp only [getProp, h4, h5]; rfl

/-- Witness for C9 at the concrete cyclic error object `exErrObj` (a
self-reference through its `self` property): the roundtrip restores `name`,
`message` and `code` and turns the back-reference into `"[Circular]"`. -/
theorem c9_decode_encode_roundtrip_witness :
    errField (deserializeError (destroyCircular exHeap 0 [])) "name"
      = some (SVal.prim (Prim.str "E"))
  ∧ errField (deserializeError (destroyCircular exHeap 0 [])) "message"
      = some (SVal.prim (Prim.str "boom"))
  ∧ errField (deserializeError (destroyCircular exHeap 0 [])) "code"
      = some (SVal.prim (Prim.str "EFOO"))
  ∧ errField (deserializeError (destroyCircular exHeap 0 [])) "self"
      = some (SVal.prim (Prim.str "[Circular]")) := by
  obtain ⟨h1, h2, h3, h4⟩ := c9_decode_encode_roundtrip exHeap 0 exErrObj rfl rfl
  exact ⟨h1 "E" (by decide), h2 "boom" (by decide), h3 "EFOO" (by decide),
         h4 "self" (by decide) (by decide)⟩

/-- C10: every dispatch arms exactly one keep-alive timer, for 540000 ms
(9 minutes), and stores its handle; when the timer fires it sends exactly
one `stub.keepAlive` frame on the current connection, changes no state and
arms no new timer. -/
theorem c10_keep_alive_single_shot (s : RefState) (cid : Nat) (rem : Nat)
    (hws : s.ws = some cid) :
    (sendMessage s rem).2.filter Action.isArm = [Action.armTimer s.nextTimer 540000]
  ∧ (sendMessage s rem).1.keepAliveTimer = some s.nextTimer
  ∧ (∀ (t : RefState) (c' : Nat) (now' rem' tid : Nat), t.ws = some c' →
        step t now' rem' (Event.timerFire tid) = (t, [Action.sendKeepAlive c'])) := by
  refine ⟨?_, ?_, ?_⟩
  · simp [sendMessage, hws, Action.isArm]
  · simp [sendMessage, hws]
  · intro t c' now' rem' tid ht
    simp [step, ht]

/-- Witness for C10: the first dispatch arms timer 0 for 540000 ms; firing
it on the opened state sends one keep-alive on connection 0 and rearms
nothing. -/
theorem c10_keep_alive_single_shot_witness :
    (sendMessage exConnected 90000).2.filter Action.isArm = [Action.armTimer 0 540000]
  ∧ step exOpened 2000 0 (Event.timerFire 0) = (exOpened, [Action.sendKeepAlive 0]) := by
  obtain ⟨h1, _, h3⟩ := c10_keep_alive_single_shot exConnected 0 90000 rfl
  exact ⟨h1, h3 exOpened 0 2000 0 0 rfl⟩

/-- C8: a frame that is not a failure signal and either has the wrong kind
or the wrong correlation id is discarded with no state change and no
actions, both at `receiveMessage` and as a message event on any live
connection. -/
theorem c8_stale_frame_discarded (s : RefState) (f : InFrame)
    (h1 : f.action ≠ "server.failedToSendRequestDueToClientNotConnected")
    (h2 : f.action ≠ "server.failedToSendRequestDueToUnknown")
    (h3 : f.action ≠ "client.lambdaResponse" ∨ f.debugRequestId ≠ some s.debugRequestId) :
    receiveMessage s f = (s, [])
  ∧ (∀ now rem c, c ∉ s.retired →
        step s now rem (Event.conn c (ConnEv.msg f)) = (s, [])) := by
  have hr : receiveMessage s f = (s, []) := by
    unfold receiveMessage
    rw [if_neg h1, if_neg h2, if_pos h3]
  exact ⟨hr, fun now rem c hc => by simp [step, hc, hr]⟩

/-- Witness for C8: a response frame with a foreign correlation id is
dropped on the opened state. -/
theorem c8_stale_frame_discarded_witness :
    receiveMessage exOpened exStaleFrame = (exOpened, [])
  ∧ step exOpened 1500 0 (Event.conn 0 (ConnEv.msg exStaleFrame)) = (exOpened, []) := by
  obtain ⟨h1, h2⟩ := c8_stale_frame_discarded exOpened exStaleFrame
    (by decide) (by decide) (Or.inr (by decide))
  exact ⟨h1, h2 1500 0 0 (by decide)⟩

/-- C2 fails on the code: on a clean close with no preceding error event
(the idle-timeout close the source's own case-3 comment expects to survive
via reconnect), `wsLastConnectError` is still `null` and the close handler
crashes reading `.type` instead of reconnecting. -/
theorem c2_close_handler_null_read_crashes :
    exOpened.wsLastConnectError = none
  ∧ step exOpened 1002 0 (Event.conn 0 (ConnEv.closed 1006 "idle"))
      = (exOpened, [Action.clearTimer 0, Action.crashNullRead]) := by
  exact ⟨rfl, rfl⟩

/-- C3 (amended): on a frame whose kind is the expected response kind and
whose correlation id equals the pending one, the correlator disarms the
keep-alive timer (the clear precedes the completion action) and exactly one
of fatal-error or success-completion fires for that frame; the pending
request id is NOT cleared — the state is returned unchanged — so a later
frame with the same id fires completion again. -/
theorem c3_match_disarms_and_completes (s : RefState) (f : InFrame)
    (hact : f.action = "client.lambdaResponse")
    (hid : f.debugRequestId = some s.debugRequestId) :
    (receiveMessage s f).2
      = (match s.keepAliveTimer with
         | some tid => [Action.clearTimer tid]
         | none => [])
        ++ [match f.responseError with
            | some err => Action.throwDeserialized (deserializeError err)
            | none => Action.callbackOk f.responseData]
  ∧ ((receiveMessage s f).2.filter Action.isCompletionOrFailure).length = 1
  ∧ (receiveMessage s f).1 = s := by
  have hr : receiveMessage s f
      = (s, (match s.keepAliveTimer with
             | some tid => [Action.clearTimer tid]
             | none => [])
            ++ [match f.responseError with
                | some err => Action.throwDeserialized (deserializeError err)
                | none => Action.callbackOk f.responseData]) := by
    unfold receiveMessage
    rw [if_neg (by rw [hact]; decide), if_neg (by rw [hact]; decide),
        if_neg (by push_neg; exact ⟨hact, hid⟩)]
    rcases s.keepAliveTimer with _ | tid <;>
      rcases f.responseError with _ | err <;> rfl
  refine ⟨by rw [hr], ?_, by rw [hr]⟩
  rw [hr]
  rcases s.keepAliveTimer with _ | tid <;>
    rcases f.responseError with _ | err <;>
    simp [Action.isCompletionOrFailure]

/-- Witness for C3 (amended) at the opened state and its matching frame:
timer 0 is cleared, then the single success completion fires, and the state
(with its pending id) is unchanged. -/
theorem c3_match_disarms_and_completes_witness :
    (receiveMessage exOpened exMatchFrame).2
      = [Action.clearTimer 0, Action.callbackOk (some (SVal.prim (Prim.str "ok")))]
  ∧ (receiveMessage exOpened exMatchFrame).1 = exOpened := by
  obtain ⟨h1, _, h3⟩ := c3_match_disarms_and_completes exOpened exMatchFrame rfl rfl
  exact ⟨by rw [h1]; rfl, h3⟩

/-- C3 as stated is false on the code: completion does not clear the
pending request id, so delivering the same matching frame twice fires the
success completion twice (two completion actions across the two deliveries,
where the claim requires the second delivery to fire nothing). -/
theorem c3_second_frame_fires_again :
    (((receiveMessage exOpened exMatchFrame).2
        ++ (receiveMessage (receiveMessage exOpened exMatchFrame).1 exMatchFrame).2).filter
        Action.isCompletionOrFailure).length = 2 := by
  rfl

/-- C4 (amended): the two remote-relay failure signals and a matched
response carrying an error all surface the failure by throwing from the
message handler — with two distinct error messages for the two signals and
the deserialized remote error for the error response — and none of these
paths invokes the completion callback. -/
theorem c4_failure_paths_throw (s : RefState) (f : InFrame) :
    (f.action = "server.failedToSendRequestDueToClientNotConnected" →
        receiveMessage s f = (s, [Action.throwErr "Debug client not connected."]))
  ∧ (f.action = "server.failedToSendRequestDueToUnknown" →
        receiveMessage s f = (s, [Action.throwErr "Failed to send request to debug client."]))
  ∧ ("Debug client not connected." ≠ "Failed to send request to debug client.")
  ∧ (f.action = "client.lambdaResponse" → f.debugRequestId = some s.debugRequestId →
      ∀ err, f.responseError = some err →
        (receiveMessage s f).2.filter Action.isCallback = []
      ∧ (receiveMessage s f).2.getLast?
          = some (Action.throwDeserialized (deserializeError err))) := by
  refine ⟨fun h1 => ?_, fun h2 => ?_, by decide, fun hact hid err herr => ?_⟩
  · unfold receiveMessage
    rw [if_pos h1]
  · unfold receiveMessage
    rw [if_neg (by rw [h2]; decide), if_pos h2]
  · have hr : receiveMessage s f
        = (s, (match s.keepAliveTimer with
               | some tid => [Action.clearTimer tid]
               | none => [])
              ++ [Action.throwDeserialized (deserializeError err)]) := by
      unfold receiveMessage
      rw [if_neg (by rw [hact]; decide), if_neg (by rw [hact]; decide),
          if_neg (by push_neg; exact ⟨hact, hid⟩), herr]
    rw [hr]
    rcases s.keepAliveTimer with _ | tid <;> simp [Action.isCallback]

/-- Witness for C4 (amended): both failure signals and a matched error
response, delivered to the opened state, throw and never invoke the
completion callback. -/
theorem c4_failure_paths_throw_witness :
    receiveMessage exOpened exNotConnectedFrame
      = (exOpened, [Action.throwErr "Debug client not connected."])
  ∧ receiveMessage exOpened exUnknownFrame
      = (exOpened, [Action.throwErr "Failed to send request to debug client."])
  ∧ (receiveMessage exOpened exErrorFrame).2.filter Action.isCallback = [] := by
  refine ⟨(c4_failure_paths_throw exOpened exNotConnectedFrame).1 rfl,
          (c4_failure_paths_throw exOpened exUnknownFrame).2.1 rfl,
          ((c4_failure_paths_throw exOpened exErrorFrame).2.2.2 rfl rfl
             (SVal.prim (Prim.str "oops")) rfl).1⟩

/-- C4 as stated is false on the code: the "target not connected" signal
throws an uncaught error from the message handler and does not resolve the
invocation through the completion callback. -/
theorem c4_counterexample_throws_not_callback :
    receiveMessage exOpened exNotConnectedFrame
      = (exOpened, [Action.throwErr "Debug client not connected."])
  ∧ (receiveMessage exOpened exNotConnectedFrame).2.filter Action.isCallback = [] := by
  exact ⟨rfl, rfl⟩

/-- Every transport or timer event leaves the invocation's correlation id
untouched: only `exports.main` writes `debugRequestId`. -/
theorem step_preserves_debugRequestId (s : RefState) (now rem : Nat) (ev : Event) :
    (step s now rem ev).1.debugRequestId = s.debugRequestId := by
  rcases ev with ⟨c, cev⟩ | tid
  · by_cases hc : c ∈ s.retired
    · simp [step, hc]
    · rcases cev with _ | ⟨code, reason⟩ | f | e
      · simp only [step, if_neg hc]
        unfold sendMessage
        rcases hws : s.ws with _ | cid <;> simp
      · simp only [step, if_neg hc]
        unfold oncloseBody
        rcases s.wsLastConnectError with _ | e2
        · rfl
        · by_cases hcond : (e2.type = "error" ∧ jsStartsWith e2.message "getaddrinfo ENOTFOUND" = true)
          · simp only [if_pos hcond]
          · simp only [if_neg hcond, connectAndSendMessage]
      · simp only [step, if_neg hc]
        unfold receiveMessage
        split
        · simp
        · split
          · simp
          · split
            · simp
            · rcases f.responseError with _ | err <;> simp
      · simp [step, hc]
  · simp only [step]
    rcases hws : s.ws with _ | cid <;> simp

/-- Correlation-id stability over any event sequence. -/
theorem runSteps_preserves_debugRequestId (evs : List (Nat × Nat × Event)) :
    ∀ (s : RefState), (runSteps s evs).1.debugRequestId = s.debugRequestId := by
  induction evs with
  | nil => intro s; rfl
  | cons p rest ih =>
      intro s
      rcases p with ⟨now, rem, ev⟩
      simp only [runSteps]
      rw [ih (step s now rem ev).1, step_preserves_debugRequestId]

/-- C1: an unsolicited close classified as transient (a stored transport
error that is not a `getaddrinfo ENOTFOUND` error event) immediately opens
exactly one new connection; once that connection opens, the pending request
is resent with the same correlation id and the same event payload as the
original send (for any remaining-time reading); and no sequence of
transport or timer events ever regenerates the correlation id. -/
theorem c1_transient_close_reconnect_resend (s : RefState) (now rem : Nat)
    (c code : Nat) (reason : String) (e : WsError)
    (hc : c ∉ s.retired)
    (herr : s.wsLastConnectError = some e)
    (htrans : ¬(e.type = "error" ∧ jsStartsWith e.message "getaddrinfo ENOTFOUND" = true))
    (hwf : ∀ r ∈ s.retired, r < s.nextConn) :
    (step s now rem (Event.conn c (ConnEv.closed code reason))).2.filter Action.isConnect
      = [Action.connect s.nextConn]
  ∧ (step s now rem (Event.conn c (ConnEv.closed code reason))).1.ws = some s.nextConn
  ∧ (step s now rem (Event.conn c (ConnEv.closed code reason))).1.debugRequestId
      = s.debugRequestId
  ∧ (step s now rem (Event.conn c (ConnEv.closed code reason))).1.event = s.event
  ∧ (∀ now' rem',
      (step (step s now rem (Event.conn c (ConnEv.closed code reason))).1 now' rem'
          (Event.conn s.nextConn ConnEv.opened)).2
        = [Action.send s.nextConn
             (requestFrame (step s now rem (Event.conn c (ConnEv.closed code reason))).1 rem'),
           Action.armTimer
             (step s now rem (Event.conn c (ConnEv.closed code reason))).1.nextTimer 540000]
      ∧ (requestFrame (step s now rem (Event.conn c (ConnEv.closed code reason))).1 rem').debugRequestId
          = s.debugRequestId
      ∧ (requestFrame (step s now rem (Event.conn c (ConnEv.closed code reason))).1 rem').event
          = s.event)
  ∧ (∀ (t : RefState) (evs : List (Nat × Nat × Event)),
        (runSteps t evs).1.debugRequestId = t.debugRequestId) := by
  have hstep : step s now rem (Event.conn c (ConnEv.closed code reason))
      = ({ s with ws := some s.nextConn, nextConn := s.nextConn + 1,
                  wsConnectedAt := now, wsLastConnectError := none },
         (match s.keepAliveTimer with
          | some tid => [Action.clearTimer tid]
          | none => []) ++ [Action.connect s.nextConn]) := by
    simp only [step, if_neg hc]
    unfold oncloseBody
    rw [herr]
    simp only [if_neg htrans]
    rfl
  have hnotret : s.nextConn ∉ s.retired := fun hmem =>
    absurd (hwf s.nextConn hmem) (lt_irrefl s.nextConn)
  refine ⟨?_, ?_, ?_, ?_, fun now' rem' => ⟨?_, ?_, ?_⟩,
          fun t evs => runSteps_preserves_debugRequestId evs t⟩
  · rw [hstep]
    rcases s.keepAliveTimer with _ | tid <;> simp [Action.isConnect]
  · rw [hstep]
  · rw [hstep]
  · rw [hstep]
  · rw [hstep]
    simp only [step, if_neg hnotret]
    unfold sendMessage
    rfl
  · rw [hstep]
    rfl
  · rw [hstep]
    rfl

/-- Witness for C1: after an `ECONNRESET` error and unsolicited close on
connection 0, exactly one new connection (1) is opened, the correlation id
survives, and opening connection 1 resends frame with the original id and
payload. -/
theorem c1_transient_close_reconnect_resend_witness :
    (step exErrored 1003 0 (Event.conn 0 (ConnEv.closed 1006 ""))).2.filter Action.isConnect
      = [Action.connect 1]
  ∧ (step exErrored 1003 0 (Event.conn 0 (ConnEv.closed 1006 ""))).1.debugRequestId
      = exErrored.debugRequestId
  ∧ (requestFrame (step exErrored 1003 0 (Event.conn 0 (ConnEv.closed 1006 ""))).1 88000).debugRequestId
      = exErrored.debugRequestId := by
  obtain ⟨h1, _, h3, _, h5, _⟩ := c1_transient_close_reconnect_resend exErrored 1003 0 0 1006 ""
    ⟨"error", "ECONNRESET"⟩ (by decide) rfl (by decide) (by decide)
  exact ⟨h1, h3, (h5 1004 88000).2.1⟩

/-- C5: an invocation arriving when the connection has reached its lifespan
rotates exactly once before the send: the old connection is retired (its
four handlers become no-ops, so its events are ignored) and closed once,
one new connection is opened, and on its open the pending request is sent
on it. -/
theorem c5_lifespan_rotation (s : RefState) (inv : Invocation) (cid : Nat)
    (hws : s.ws = some cid)
    (hexp : inv.now - s.wsConnectedAt ≥ CONNECTION_LIFESPAN)
    (hcid : cid < s.nextConn)
    (hwf : ∀ r ∈ s.retired, r < s.nextConn) :
    (main s inv).2 = [Action.closeConn cid, Action.connect s.nextConn]
  ∧ (main s inv).1.ws = some s.nextConn
  ∧ cid ∈ (main s inv).1.retired
  ∧ (∀ now rem ev, step (main s inv).1 now rem (Event.conn cid ev) = ((main s inv).1, []))
  ∧ (∀ now rem,
      (step (main s inv).1 now rem (Event.conn s.nextConn ConnEv.opened)).2
        = [Action.send s.nextConn (requestFrame (main s inv).1 rem),
           Action.armTimer (main s inv).1.nextTimer 540000]
    ∧ (requestFrame (main s inv).1 rem).debugRequestId = (main s inv).1.debugRequestId
    ∧ (requestFrame (main s inv).1 rem).event = inv.event) := by
  have hmain : main s inv
      = ({ s with
            event := inv.event
            awsRequestId := inv.awsRequestId
            functionName := inv.functionName
            memoryLimitInMB := inv.memoryLimitInMB
            keepAliveTimer := none
            debugRequestId := inv.awsRequestId ++ "-" ++ toString inv.now
            retired := cid :: s.retired
            ws := some s.nextConn
            nextConn := s.nextConn + 1
            wsConnectedAt := inv.now
            wsLastConnectError := none },
         [Action.closeConn cid, Action.connect s.nextConn]) := by
    unfold main
    simp only [hws]
    rw [if_pos hexp]
    unfold disconnect
    simp only [hws]
    unfold connectAndSendMessage
    rfl
  have hnotret : s.nextConn ∉ cid :: s.retired := by
    intro hmem
    rcases List.mem_cons.mp hmem with heq | hmem'
    · exact absurd (heq ▸ hcid) (lt_irrefl s.nextConn)
    · exact absurd (hwf s.nextConn hmem') (lt_irrefl s.nextConn)
  refine ⟨by rw [hmain], by rw [hmain], by rw [hmain]; exact List.mem_cons_self cid s.retired,
          fun now rem ev => ?_, fun now rem => ⟨?_, ?_, ?_⟩⟩
  · rw [hmain]
    have hret : cid ∈ (cid :: s.retired) := List.mem_cons_self cid s.retired
    simp [step, hret]
  · rw [hmain]
    simp only [step, if_neg hnotret]
    unfold sendMessage
    rfl
  · rw [hmain]
    rfl
  · rw [hmain]
    rfl

/-- Witness for C5: the invocation at 2000000 ms (lifespan exceeded) on the
opened state closes connection 0 once, opens connection 1, ignores further
events of connection 0, and delivers the request on connection 1. -/
theorem c5_lifespan_rotation_witness :
    (main exOpened exRotInv).2 = [Action.closeConn 0, Action.connect 1]
  ∧ step (main exOpened exRotInv).1 2000001 0 (Event.conn 0 ConnEv.opened)
      = ((main exOpened exRotInv).1, []) := by
  obtain ⟨h1, _, _, h4, _⟩ := c5_lifespan_rotation exOpened exRotInv 0 rfl
    (by decide) (by decide) (by decide)
  exact ⟨h1, h4 2000001 0 ConnEv.opened⟩

/-- C6: across any sequence of invocations on a live connection, each
arriving within the lifespan, no connection is opened or closed, the
connection and its establishment time are unchanged, and every request
frame goes out on the existing connection. -/
theorem c6_within_lifespan_single_connection (cid : Nat) (invs : List Invocation) :
    ∀ (s : RefState), s.ws = some cid →
      (∀ inv ∈ invs, inv.now - s.wsConnectedAt < CONNECTION_LIFESPAN) →
      (runMains s invs).2.filter Action.isConnect = []
    ∧ (runMains s invs).2.filter Action.isCloseConn = []
    ∧ (runMains s invs).1.ws = some cid
    ∧ (runMains s invs).1.wsConnectedAt = s.wsConnectedAt
    ∧ (∀ a ∈ (runMains s invs).2, Action.isSendReq a = true →
          ∃ fr, a = Action.send cid fr) := by
  induction invs with
  | nil =>
      intro s hws _
      exact ⟨rfl, rfl, hws, rfl, by intro a ha; simp [runMains] at ha⟩
  | cons inv rest ih =>
      intro s hws hin
      have hlt : inv.now - s.wsConnectedAt < CONNECTION_LIFESPAN :=
        hin inv (List.mem_cons_self inv rest)
      have hmain : main s inv
          = (let s0 : RefState := { s with event := inv.event, awsRequestId := inv.awsRequestId, functionName := inv.functionName, memoryLimitInMB := inv.memoryLimitInMB, keepAliveTimer := none, debugRequestId := inv.awsRequestId ++ "-" ++ toString inv.now };
             ({ s0 with keepAliveTimer := some s0.nextTimer, nextTimer := s0.nextTimer + 1 },
              [Action.send cid (requestFrame s0 inv.rem),
               Action.armTimer s0.nextTimer 540000])) := by
        unfold main
        simp only [hws]
        rw [if_neg (not_le.mpr hlt)]
        unfold sendMessage
        simp only [hws]
      rcases hrun : runMains (main s inv).1 rest with ⟨s2, a2⟩
      have hws1 : (main s inv).1.ws = some cid := by rw [hmain]; exact hws
      have hat1 : (main s inv).1.wsConnectedAt = s.wsConnectedAt := by rw [hmain]
      have hin1 : ∀ inv2 ∈ rest, inv2.now - (main s inv).1.wsConnectedAt < CONNECTION_LIFESPAN := by
        intro inv2 h2
        rw [hat1]
        exact hin inv2 (List.mem_cons_of_mem inv h2)
      have hrest := ih (main s inv).1 hws1 hin1
      rw [hrun] at hrest
      have hsplit : runMains s (inv :: rest)
          = (s2, (main s inv).2 ++ a2) := by
        simp only [runMains]
        rw [hrun]
      refine ⟨?_, ?_, ?_, ?_, ?_⟩
      · rw [hsplit, List.filter_append, hrest.1]
        rw [hmain]
        rfl
      · rw [hsplit, List.filter_append, hrest.2.1]
        rw [hmain]
        rfl
      · rw [hsplit]
        have := hrest.2.2.1
        simpa using this
      · rw [hsplit]
        have h4 := hrest.2.2.2.1
        have : s2.wsConnectedAt = s.wsConnectedAt := by
          simpa [hat1] using h4
        simpa using this
      · rw [hsplit]
        intro a ha hsend
        rcases List.mem_append.mp ha with hmem | hmem
        · rw [hmain] at hmem
          rcases List.mem_cons.mp hmem with rfl | hmem2
          · exact ⟨_, rfl⟩
          · rcases List.mem_singleton.mp hmem2 with rfl
            simp [Action.isSendReq] at hsend
        · exact hrest.2.2.2.2 a hmem hsend

/-- Witness for C6: two invocations at 5 s and 9 s after the first connect
reuse connection 0 with no connect and no close. -/
theorem c6_within_lifespan_single_connection_witness :
    (runMains exOpened [exInv2, exInv3]).2.filter Action.isConnect = []
  ∧ (runMains exOpened [exInv2, exInv3]).2.filter Action.isCloseConn = []
  ∧ (runMains exOpened [exInv2, exInv3]).1.ws = some 0 := by
  obtain ⟨h1, h2, h3, _, _⟩ := c6_within_lifespan_single_connection 0 [exInv2, exInv3]
    exOpened rfl (by decide)
  exact ⟨h1, h2, h3⟩

/-- After the handle is dropped on an unresolvable-target close, any
error-event-free sequence of further events (a closed transport emits no
further events at all, in particular no error events) produces no connect
and no request send: the stored error keeps classifying any close as
terminal, and sends fail on the absent handle. -/
theorem no_connect_after_unresolvable (e : WsError)
    (htype : e.type = "error")
    (hmsg : jsStartsWith e.message "getaddrinfo ENOTFOUND" = true) :
    ∀ (evs : List (Nat × Nat × Event)) (t : RefState),
      t.ws = none → t.wsLastConnectError = some e →
      (∀ p ∈ evs, ∀ cc ee, p.2.2 ≠ Event.conn cc (ConnEv.errEv ee)) →
      (runSteps t evs).2.filter Action.isConnect = []
    ∧ (runSteps t evs).2.filter Action.isSendReq = []
  | [], _, _, _, _ => ⟨rfl, rfl⟩
  | (now, rem, ev) :: rest, t, hws, herr, hne => by
      have key : ((step t now rem ev).1.ws = none
            ∧ (step t now rem ev).1.wsLastConnectError = some e)
          ∧ (step t now rem ev).2.filter Action.isConnect = []
          ∧ (step t now rem ev).2.filter Action.isSendReq = [] := by
        rcases ev with ⟨c, cev⟩ | tid
        · by_cases hc : c ∈ t.retired
          · simp only [step, if_pos hc]
            exact ⟨⟨hws, herr⟩, rfl, rfl⟩
          · rcases cev with _ | ⟨code, reason⟩ | f | e2
            · simp only [step, if_neg hc]
              unfold sendMessage
              rw [hws]
              exact ⟨⟨hws, herr⟩, rfl, rfl⟩
            · simp only [step, if_neg hc]
              unfold oncloseBody
              simp only [herr]
              rw [if_pos ⟨htype, hmsg⟩]
              rcases t.keepAliveTimer with _ | tid2
              · exact ⟨⟨rfl, rfl⟩, rfl, rfl⟩
              · exact ⟨⟨rfl, rfl⟩, rfl, rfl⟩
            · simp only [step, if_neg hc]
              unfold receiveMessage
              split
              · exact ⟨⟨hws, herr⟩, rfl, rfl⟩
              · split
                · exact ⟨⟨hws, herr⟩, rfl, rfl⟩
                · split
                  · exact ⟨⟨hws, herr⟩, rfl, rfl⟩
                  · rcases f.responseError with _ | err <;>
                      rcases t.keepAliveTimer with _ | tid2 <;>
                      exact ⟨⟨hws, herr⟩, rfl, rfl⟩
            · exact absurd rfl
                (hne (now, rem, Event.conn c (ConnEv.errEv e2))
                  (List.mem_cons_self _ _) c e2)
        · simp only [step]
          rw [hws]
          exact ⟨⟨hws, herr⟩, rfl, rfl⟩
      rcases hstep : step t now rem ev with ⟨s1, a1⟩
      rw [hstep] at key
      have hrest := no_connect_after_unresolvable e htype hmsg rest s1
        key.1.1 key.1.2 (fun p hp => hne p (List.mem_cons_of_mem _ hp))
      rcases hrun : runSteps s1 rest with ⟨s2, a2⟩
      rw [hrun] at hrest
      have hsplit : runSteps t ((now, rem, ev) :: rest) = (s2, a1 ++ a2) := by
        simp only [runSteps]
        rw [hstep, hrun]
      rw [hsplit]
      exact ⟨by rw [List.filter_append, key.2.1, hrest.1]; rfl,
             by rw [List.filter_append, key.2.2, hrest.2]; rfl⟩

/-- C7: an unsolicited close whose stored transport error is an error-typed
event with the DNS-failure prefix drops the connection handle, opens no new
connection and resends nothing — neither at the close itself nor across any
further (error-event-free) events of the invocation. -/
theorem c7_unresolvable_close_terminal (s : RefState) (now rem : Nat)
    (c code : Nat) (reason : String) (e : WsError)
    (hc : c ∉ s.retired)
    (herr : s.wsLastConnectError = some e)
    (htype : e.type = "error")
    (hmsg : jsStartsWith e.message "getaddrinfo ENOTFOUND" = true) :
    (step s now rem (Event.conn c (ConnEv.closed code reason))).1.ws = none
  ∧ (step s now rem (Event.conn c (ConnEv.closed code reason))).2.filter
      Action.isConnect = []
  ∧ (step s now rem (Event.conn c (ConnEv.closed code reason))).2.filter
      Action.isSendReq = []
  ∧ (∀ (evs : List (Nat × Nat × Event)),
      (∀ p ∈ evs, ∀ cc ee, p.2.2 ≠ Event.conn cc (ConnEv.errEv ee)) →
      (runSteps (step s now rem (Event.conn c (ConnEv.closed code reason))).1 evs).2.filter
          Action.isConnect = []
    ∧ (runSteps (step s now rem (Event.conn c (ConnEv.closed code reason))).1 evs).2.filter
          Action.isSendReq = []) := by
  have hstep : step s now rem (Event.conn c (ConnEv.closed code reason))
      = ({ s with ws := none },
         match s.keepAliveTimer with
         | some tid => [Action.clearTimer tid]
         | none => []) := by
    simp only [step, if_neg hc]
    unfold oncloseBody
    simp only [herr]
    rw [if_pos ⟨htype, hmsg⟩]
  refine ⟨by rw [hstep], ?_, ?_, ?_⟩
  · rw [hstep]
    rcases s.keepAliveTimer with _ | tid <;> rfl
  · rw [hstep]
    rcases s.keepAliveTimer with _ | tid <;> rfl
  · intro evs hno
    exact no_connect_after_unresolvable e htype hmsg evs _
      (by rw [hstep]) (by rw [hstep]; exact herr) hno

set_option maxRecDepth 4000 in
/-- Witness for C7: after the `getaddrinfo ENOTFOUND` error, the close of
connection 0 drops the handle, opens nothing, resends nothing, and a
subsequent close event still opens nothing. -/
theorem c7_unresolvable_close_terminal_witness :
    (step exUnresolvable 1003 0 (Event.conn 0 (ConnEv.closed 1006 ""))).1.ws = none
  ∧ (step exUnresolvable 1003 0 (Event.conn 0 (ConnEv.closed 1006 ""))).2.filter
      Action.isConnect = []
  ∧ (runSteps (step exUnresolvable 1003 0 (Event.conn 0 (ConnEv.closed 1006 ""))).1
      [(2000, 0, Event.conn 0 (ConnEv.closed 1006 ""))]).2.filter Action.isConnect = [] := by
  obtain ⟨h1, h2, _, h4⟩ := c7_unresolvable_close_terminal exUnresolvable 1003 0 0 1006 ""
    ⟨"error", "getaddrinfo ENOTFOUND host"⟩ (by decide) rfl rfl (by decide)
  refine ⟨h1, h2, ?_⟩
  refine (h4 [(2000, 0, Event.conn 0 (ConnEv.closed 1006 ""))] ?_).1
  intro p hp cc ee
  rcases List.mem_singleton.mp hp with rfl
  simp

end Stub
